import Mathlib

/-!
Verification of the request-relay core of the `engine-tester` repository
(`src/engine_tester/processor.py`).

Strings are modelled as `List Char` (Python `str` by code points); file paths
are modelled by their full POSIX path string.  Library calls of the Python
standard library that the module uses (`urllib.parse.urlsplit` /
`urlunsplit`, `pathlib` name/stem manipulation, `re` pattern matching for
the concrete patterns of the route table) are embedded faithfully below.
-/

deriving instance DecidableEq for Except

namespace EngineTester

/-! ### pathlib: name, stem, with_name

`pathlib.PurePath.name` is the final path component (everything after the
last `/` for POSIX paths); `with_name` replaces it; `stem` is the name with
its last extension removed (`name[:i]` for `i = name.rfind('.')` when
`0 < i < len(name) - 1`, else `name`). -/

def path_name (p : List Char) : List Char :=
  (p.reverse.takeWhile (fun c => c ≠ '/')).reverse

def path_with_name (p newName : List Char) : List Char :=
  (p.reverse.dropWhile (fun c => c ≠ '/')).reverse ++ newName

/-- Index of the last occurrence of `c` in `l` (Python `str.rfind`,
`none` for Python's `-1`). -/
def rfindChar : List Char → Char → Option Nat
  | [], _ => none
  | x :: xs, c =>
    match rfindChar xs c with
    | some i => some (i + 1)
    | none => if x = c then some 0 else none

def path_stem (name : List Char) : List Char :=
  match rfindChar name '.' with
  | some i => if 0 < i ∧ i < name.length - 1 then name.take i else name
  | none => name

/-! ### The route-rule patterns

Every pattern of `_IDOU_ROUTE_RULES` has the shape `^PRE(?:_.*)?_req\.json$`
for a literal `PRE`, so a rule is represented by that literal.  Python
`re` semantics embedded: `.` does not match a newline, and a final `$`
also matches just before a trailing newline. -/

/-- Strip the literal `pre` from the front of `s` (`none` when `s` does not
start with `pre`). -/
def stripPre : List Char → List Char → Option (List Char)
  | [], s => some s
  | _ :: _, [] => none
  | c :: pre, d :: s => if c = d then stripPre pre s else none

/-- Match `.*_req\.json` against `r`: some split `r = t ++ "_req.json"`
with `t` free of newlines. -/
def dotStarReq : List Char → Bool
  | [] => false
  | c :: rest => ((c :: rest) == "_req.json".data) || (c != '\n' && dotStarReq rest)

/-- Match `^PRE(?:_.*)?_req\.json` against all of `s`: either
`s = PRE ++ "_req.json"` or `s = PRE ++ "_" ++ t ++ "_req.json"` with `t`
newline-free. -/
def ruleCore (pre s : List Char) : Bool :=
  match stripPre pre s with
  | none => false
  | some r =>
    (r == "_req.json".data) ||
      (match r with
       | '_' :: rest => dotStarReq rest
       | _ => false)

/-- Full-pattern match including Python's `$`, which also matches just
before a trailing newline. -/
def ruleMatch (pre s : List Char) : Bool :=
  ruleCore pre s || (s.getLast? == some '\n' && ruleCore pre s.dropLast)

/-- The route table of `processor.py`: each pattern `^PRE(?:_.*)?_req\.json$`
is represented by its literal `PRE`, paired with the path suffix.  Note that
the source maps `15_2` to `"meisaiif"`; the `"meisairep"` line is commented
out there. -/
def _IDOU_ROUTE_RULES : List (List Char × List Char) :=
  [("03".data, "chkkeiyakuOver".data),
   ("05".data, "jissekicalc".data),
   ("06".data, "adjustget".data),
   ("08".data, "jissekiif".data),
   ("09".data, "jissekirep".data),
   ("11".data, "kekkarep".data),
   ("15_1".data, "meisaiif".data),
   ("15_2".data, "meisaiif".data)]

/-! ### urllib.parse: urlsplit / urlunsplit

Embedded from CPython's `urllib.parse.urlsplit`: leading C0-control/space
characters are stripped, all tab/CR/LF characters removed, an ASCII-alpha
initiated scheme of scheme characters before the first `:` is lowered and
split off, a `//`-prefixed authority is split at the first of `/?#`
(raising `ValueError` for a mismatched square bracket), then the fragment
is split at the first `#` and the query at the first `?`. -/

structure SplitResult where
  scheme : List Char
  netloc : List Char
  path : List Char
  query : List Char
  fragment : List Char
deriving DecidableEq, Repr

inductive UrlError where
  | invalidIPv6
deriving DecidableEq, Repr

def isAsciiAlpha (c : Char) : Bool :=
  ('a' ≤ c && c ≤ 'z') || ('A' ≤ c && c ≤ 'Z')

def isAsciiDigit (c : Char) : Bool :=
  '0' ≤ c && c ≤ '9'

/-- Characters allowed in a URL scheme (`scheme_chars` of `urllib.parse`). -/
def isSchemeChar (c : Char) : Bool :=
  isAsciiAlpha c || isAsciiDigit c || c == '+' || c == '-' || c == '.'

def asciiLower (s : List Char) : List Char :=
  s.map (fun c => if 'A' ≤ c && c ≤ 'Z' then Char.ofNat (c.toNat + 32) else c)

def urlsplit (url0 : List Char) : Except UrlError SplitResult :=
  -- url.lstrip(_WHATWG_C0_CONTROL_OR_SPACE)
  let url1 := url0.dropWhile (fun c => c.toNat ≤ 0x20)
  -- remove each of _UNSAFE_URL_BYTES_TO_REMOVE = "\t\r\n"
  let url2 := url1.filter (fun c => !(c == '\t' || c == '\r' || c == '\n'))
  -- scheme detection at the first ':'
  let schemeUrl : List Char × List Char :=
    match url2.findIdx? (fun c => c == ':') with
    | some i =>
      if 0 < i ∧ isAsciiAlpha (url2.headD ' ') ∧ (url2.take i).all isSchemeChar then
        (asciiLower (url2.take i), url2.drop (i + 1))
      else ([], url2)
    | none => ([], url2)
  let scheme := schemeUrl.1
  let url3 := schemeUrl.2
  -- netloc after a leading "//", up to the first of '/', '?', '#'
  let netlocUrl : List Char × List Char :=
    if url3.take 2 = "//".data then
      ((url3.drop 2).takeWhile (fun c => !(c == '/' || c == '?' || c == '#')),
       (url3.drop 2).dropWhile (fun c => !(c == '/' || c == '?' || c == '#')))
    else ([], url3)
  let netloc := netlocUrl.1
  let url4 := netlocUrl.2
  if ('[' ∈ netloc ∧ ']' ∉ netloc) ∨ (']' ∈ netloc ∧ '[' ∉ netloc) then
    Except.error UrlError.invalidIPv6
  else
    -- fragment at the first '#', then query at the first '?'
    let fragment := (url4.dropWhile (fun c => c ≠ '#')).drop 1
    let url5 := url4.takeWhile (fun c => c ≠ '#')
    let query := (url5.dropWhile (fun c => c ≠ '?')).drop 1
    let path := url5.takeWhile (fun c => c ≠ '?')
    Except.ok ⟨scheme, netloc, path, query, fragment⟩

def urlunsplit (scheme netloc path query fragment : List Char) : List Char :=
  let url := path
  let url :=
    if netloc ≠ [] ∨ (url ≠ [] ∧ url.take 2 = "//".data) then
      "//".data ++ netloc ++
        (if url ≠ [] ∧ url.headD ' ' ≠ '/' then '/' :: url else url)
    else url
  let url := if scheme ≠ [] then scheme ++ ':' :: url else url
  let url := if query ≠ [] then url ++ '?' :: query else url
  if fragment ≠ [] then url ++ '#' :: fragment else url

/-- Python `str.rstrip('/')`. -/
def rstripSlash (s : List Char) : List Char :=
  (s.reverse.dropWhile (fun c => c = '/')).reverse

/-- `resolve_post_url` of `processor.py`: determine the downstream POST URL
for a given request file.  A `ValueError` raised by `urlsplit` propagates. -/
def resolve_post_url (base_url : List Char) (request_path : List Char) :
    Except UrlError (List Char) :=
  match urlsplit base_url with
  | Except.error e => Except.error e
  | Except.ok parts =>
    if ¬ ("/idou/".data <:+: parts.path) then Except.ok base_url
    else
      let filename := path_name request_path
      match _IDOU_ROUTE_RULES.find? (fun rule => ruleMatch rule.1 filename) with
      | some rule =>
        Except.ok (urlunsplit parts.scheme parts.netloc
          (rstripSlash parts.path ++ '/' :: rule.2) parts.query parts.fragment)
      | none => Except.ok base_url

/-! ### build_response_path

`build_response_path` of `processor.py`: replace a `_req` stem suffix by
`_res` (respectively `_req3` by `_res3`) and append `.json`; raise a
`ProcessingError` for any other name. -/

inductive RelayError where
  /-- `ProcessingError`: file name does not end with a recognized suffix. -/
  | unrecognizedSuffix (path : List Char)
  /-- `ProcessingError`: invalid JSON in a request file. -/
  | invalidRequestJSON (path : List Char)
  /-- `ProcessingError`: downstream server responded with an error status. -/
  | downstreamStatus (code : Nat)
  /-- `ProcessingError`: downstream response is not valid JSON. -/
  | invalidDownstreamJSON
  /-- `ValueError` propagating out of `urlsplit`. -/
  | invalidURL
deriving DecidableEq, Repr

def build_response_path (request_path : List Char) : Except RelayError (List Char) :=
  let stem := path_stem (path_name request_path)
  if "_req".data <:+ stem then
    Except.ok (path_with_name request_path
      (stem.take (stem.length - 4) ++ "_res.json".data))
  else if "_req3".data <:+ stem then
    Except.ok (path_with_name request_path
      (stem.take (stem.length - 5) ++ "_res3.json".data))
  else Except.error (RelayError.unrecognizedSuffix request_path)

/-! ### iter_request_files

`iter_request_files` of `processor.py`: the union of the two recursive glob
matches `*_req.json` and `*_req3.json` is collected into a `set` and then
sorted.  The filesystem tree under the root is abstracted as the list of the
full path strings of its entries; a glob pattern without a separator matches
an entry whose final component matches it, and for these two patterns that
is exactly an ends-with test.  `sorted` compares `pathlib` paths with
`PurePath.__lt__`, which compares the tuples of path components (`_cparts`;
case-preserving on POSIX), not the full path strings. -/

def matchesReqJson (p : List Char) : Bool :=
  decide ("_req.json".data <:+ path_name p)

def matchesReq3Json (p : List Char) : Bool :=
  decide ("_req3.json".data <:+ path_name p)

/-- `pathlib.PurePath.parts` of a normalized POSIX path string: its
`/`-separated components.  For an absolute normalized path (the shape
`resolve_directory` and `rglob` produce) the leading empty component
stands for the `/` root part and is common to all compared paths. -/
def path_parts (p : List Char) : List (List Char) :=
  p.splitOn '/'

instance decRelPathPartsLe :
    DecidableRel (fun a b : List Char => path_parts a ≤ path_parts b) :=
  fun a b => inferInstanceAs (Decidable (path_parts a ≤ path_parts b))

def iter_request_files (fs : List (List Char)) : List (List Char) :=
  List.insertionSort (fun a b => path_parts a ≤ path_parts b)
    ((fs.filter matchesReqJson ++ fs.filter matchesReq3Json).dedup)

/-! ### relay_requests

The effectful pieces of `relay_requests` are abstracted by functions:
`load` models `load_request_payload` (`none` = `json.JSONDecodeError`,
raised as `InvalidRequestJSON`), `post` models `client.post` for whichever
HTTP client is in use, returning the observable outcome of the response
object, and the writes performed by `save_response_payload` are recorded in
order.  The `try`/`finally` block is modelled by the outcome record always
carrying the `client_closed` flag, which is set exactly when
`owns_client` holds (no caller supplied a client), on the error and on the
success path alike.  `J` is the type of parsed JSON payloads. -/

/-- Observable behaviour of one `httpx` response: `status_error = some c`
means `raise_for_status` raises `HTTPStatusError` with status `c`;
`json_body = none` means `response.json()` raises. -/
structure HttpResponse (J : Type) where
  status_error : Option Nat
  json_body : Option J
deriving DecidableEq, Repr

structure ProcessedFile where
  request_path : List Char
  response_path : List Char
deriving DecidableEq, Repr

structure ProcessSummary where
  target_url : List Char
  base_directory : List Char
  processed_files : List ProcessedFile
deriving DecidableEq, Repr

/-- The `processed_count` property is derived from `processed_files`. -/
def ProcessSummary.processed_count (s : ProcessSummary) : Nat :=
  s.processed_files.length

structure RelayOutcome (J : Type) where
  result : Except RelayError ProcessSummary
  /-- the `save_response_payload` calls, in order -/
  writes : List (List Char × J)
  /-- whether `client.close()` was called by `relay_requests` -/
  client_closed : Bool
deriving DecidableEq

/-- The loop body of `relay_requests` for a single request file: load,
route, POST, `raise_for_status`, parse the response, derive the response
path.  On success it returns the `ProcessedFile` record together with the
write performed by `save_response_payload`. -/
def process_file {J : Type} (target_url : List Char)
    (load : List Char → Option J)
    (post : List Char → J → HttpResponse J)
    (request_path : List Char) :
    Except RelayError (ProcessedFile × (List Char × J)) :=
  match load request_path with
  | none => Except.error (RelayError.invalidRequestJSON request_path)
  | some payload =>
    match resolve_post_url target_url request_path with
    | Except.error _ => Except.error RelayError.invalidURL
    | Except.ok post_url =>
      let response := post post_url payload
      match response.status_error with
      | some code => Except.error (RelayError.downstreamStatus code)
      | none =>
        match response.json_body with
        | none => Except.error RelayError.invalidDownstreamJSON
        | some response_payload =>
          match build_response_path request_path with
          | Except.error e => Except.error e
          | Except.ok response_path =>
            Except.ok (⟨request_path, response_path⟩,
              (response_path, response_payload))

/-- The `for` loop of `relay_requests`: files strictly in order, stopping at
the first failure; the writes of the files processed so far persist even
when a later file fails. -/
def relay_loop {J : Type} (target_url : List Char)
    (load : List Char → Option J)
    (post : List Char → J → HttpResponse J) :
    List (List Char) →
      Except RelayError (List ProcessedFile) × List (List Char × J)
  | [] => (Except.ok [], [])
  | p :: rest =>
    match process_file target_url load post p with
    | Except.error e => (Except.error e, [])
    | Except.ok (pf, w) =>
      let tail := relay_loop target_url load post rest
      (tail.1.map (fun pfs => pf :: pfs), w :: tail.2)

/-- `relay_requests` of `processor.py` over the abstracted filesystem `fs`
(the recursive listing of `directory`).  `clientSupplied` records whether
the caller passed an HTTP client; `owns_client` is its negation, and the
`finally` block closes the client exactly when `owns_client` holds,
whatever the outcome. -/
def relay_requests {J : Type} (target_url : List Char)
    (directory : List Char) (fs : List (List Char))
    (load : List Char → Option J)
    (post : List Char → J → HttpResponse J)
    (clientSupplied : Bool) : RelayOutcome J :=
  let owns_client := !clientSupplied
  let run := relay_loop target_url load post (iter_request_files fs)
  { result := run.1.map (fun pfs =>
      { target_url := target_url, base_directory := directory,
        processed_files := pfs }),
    writes := run.2,
    client_closed := owns_client }

/-! ### Lemmas about the pattern matcher -/

theorem stripPre_eq {pre : List Char} :
    ∀ {s r : List Char}, stripPre pre s = some r → s = pre ++ r := by
  induction pre with
  | nil =>
    intro s r h
    simp only [stripPre, Option.some.injEq] at h
    simp [h]
  | cons c pre ih =>
    intro s r h
    cases s with
    | nil => simp [stripPre] at h
    | cons d s =>
      simp only [stripPre] at h
      split at h
      · next hcd => simp [← hcd, ih h]
      · exact absurd h (by simp)

theorem dotStarReq_suffix : ∀ {r : List Char},
    dotStarReq r = true → "_req.json".data <:+ r := by
  intro r
  induction r with
  | nil => intro h; simp [dotStarReq] at h
  | cons c rest ih =>
    intro h
    simp only [dotStarReq, Bool.or_eq_true, beq_iff_eq, Bool.and_eq_true,
      bne_iff_ne] at h
    rcases h with h | ⟨-, h⟩
    · rw [h]
    · exact (ih h).trans (List.suffix_cons c rest)

theorem ruleCore_suffix {pre s : List Char} (h : ruleCore pre s = true) :
    "_req.json".data <:+ s := by
  unfold ruleCore at h
  split at h
  · exact absurd h (by simp)
  · next r hsp =>
    rw [stripPre_eq hsp]
    simp only [Bool.or_eq_true, beq_iff_eq] at h
    rcases h with h | h
    · rw [h]; exact List.suffix_append _ _
    · split at h
      · next rest =>
        exact ((dotStarReq_suffix h).trans
          (List.suffix_cons '_' rest)).trans (List.suffix_append _ _)
      · exact absurd h (by simp)

theorem suffix_of_suffix_of_length_le {s t l : List Char}
    (hs : s <:+ l) (ht : t <:+ l) (hle : s.length ≤ t.length) : s <:+ t := by
  obtain ⟨a, ha⟩ := hs
  obtain ⟨b, hb⟩ := ht
  have hlen : a.length + s.length = b.length + t.length := by
    have := congrArg List.length (ha.trans hb.symm)
    simpa using this
  have hba : b.length ≤ a.length := by omega
  refine ⟨a.drop b.length, ?_⟩
  have h1 : (a ++ s).drop b.length = (b ++ t).drop b.length := by rw [ha, hb]
  rw [List.drop_append_eq_append_drop, Nat.sub_eq_zero_of_le hba,
    List.drop_zero, List.drop_left] at h1
  exact h1

theorem getLast?_of_req3 {s : List Char} (h : "_req3.json".data <:+ s) :
    s.getLast? = some 'n' := by
  obtain ⟨a, ha⟩ := h
  rw [← ha, List.getLast?_append]
  rfl

theorem ruleMatch_eq_false_of_req3 {s : List Char}
    (h : "_req3.json".data <:+ s) (pre : List Char) :
    ruleMatch pre s = false := by
  have hcore : ruleCore pre s = false := by
    cases hc : ruleCore pre s
    · rfl
    · have h9 : "_req.json".data <:+ "_req3.json".data :=
        suffix_of_suffix_of_length_le (ruleCore_suffix hc) h (by decide)
      exact absurd h9 (by decide)
  have hl : s.getLast? = some 'n' := getLast?_of_req3 h
  simp [ruleMatch, hcore, hl]

/-! ### Lemmas about stems and response paths -/

theorem rfindChar_append {l₂ : List Char} {c : Char} {i : Nat}
    (h : rfindChar l₂ c = some i) (l₁ : List Char) :
    rfindChar (l₁ ++ l₂) c = some (l₁.length + i) := by
  induction l₁ with
  | nil => simpa using h
  | cons x xs ih =>
    simp only [List.cons_append, rfindChar, List.append_eq, ih,
      List.length_cons, Option.some.injEq]
    omega

theorem path_stem_of_rfind_some {name : List Char} {i : Nat}
    (h : rfindChar name '.' = some i) :
    path_stem name =
      if 0 < i ∧ i < name.length - 1 then name.take i else name := by
  unfold path_stem
  rw [h]

theorem path_stem_req {p : List Char} :
    path_stem (p ++ "_req.json".data) = p ++ "_req".data := by
  have h := rfindChar_append (by decide : rfindChar "_req.json".data '.' = some 4) p
  rw [path_stem_of_rfind_some h]
  have hlit : ("_req.json".data).length = 9 := by decide
  have hcond : 0 < p.length + 4 ∧
      p.length + 4 < (p ++ "_req.json".data).length - 1 := by
    rw [List.length_append, hlit]; omega
  rw [if_pos hcond, List.take_append_eq_append_take,
    List.take_of_length_le (by omega : p.length ≤ p.length + 4)]
  congr 1
  have h4 : p.length + 4 - p.length = 4 := by omega
  rw [h4]
  decide

theorem path_stem_req3 {p : List Char} :
    path_stem (p ++ "_req3.json".data) = p ++ "_req3".data := by
  have h := rfindChar_append (by decide : rfindChar "_req3.json".data '.' = some 5) p
  rw [path_stem_of_rfind_some h]
  have hlit : ("_req3.json".data).length = 10 := by decide
  have hcond : 0 < p.length + 5 ∧
      p.length + 5 < (p ++ "_req3.json".data).length - 1 := by
    rw [List.length_append, hlit]; omega
  rw [if_pos hcond, List.take_append_eq_append_take,
    List.take_of_length_le (by omega : p.length ≤ p.length + 5)]
  congr 1
  have h5 : p.length + 5 - p.length = 5 := by omega
  rw [h5]
  decide

theorem build_response_path_req {path p : List Char}
    (h : path_name path = p ++ "_req.json".data) :
    build_response_path path =
      Except.ok (path_with_name path (p ++ "_res.json".data)) := by
  unfold build_response_path
  rw [h, path_stem_req, if_pos (List.suffix_append p "_req".data)]
  have hlen : (p ++ "_req".data).length - 4 = p.length := by
    rw [List.length_append, (by decide : ("_req".data).length = 4)]
    omega
  rw [hlen, List.take_left]

theorem build_response_path_req3 {path p : List Char}
    (h : path_name path = p ++ "_req3.json".data) :
    build_response_path path =
      Except.ok (path_with_name path (p ++ "_res3.json".data)) := by
  unfold build_response_path
  have hnot : ¬ ("_req".data <:+ p ++ "_req3".data) := by
    intro hsuf
    have := suffix_of_suffix_of_length_le hsuf
      (List.suffix_append p "_req3".data) (by decide)
    exact absurd this (by decide)
  rw [h, path_stem_req3, if_neg hnot,
    if_pos (List.suffix_append p "_req3".data)]
  have hlen : (p ++ "_req3".data).length - 5 = p.length := by
    rw [List.length_append, (by decide : ("_req3".data).length = 5)]
    omega
  rw [hlen, List.take_left]

theorem build_response_path_error_iff {path : List Char} :
    build_response_path path =
        Except.error (RelayError.unrecognizedSuffix path) ↔
      ¬ ("_req".data <:+ path_stem (path_name path)) ∧
        ¬ ("_req3".data <:+ path_stem (path_name path)) := by
  unfold build_response_path
  by_cases h1 : "_req".data <:+ path_stem (path_name path)
  · simp [h1]
  · by_cases h2 : "_req3".data <:+ path_stem (path_name path)
    · simp [h1, h2]
    · simp [h1, h2]

/-! ### Lemmas about the relay loop -/

theorem process_file_ok_request_path {J : Type} {t : List Char}
    {load : List Char → Option J} {post : List Char → J → HttpResponse J}
    {p : List Char} {pf : ProcessedFile} {w : List Char × J}
    (h : process_file t load post p = Except.ok (pf, w)) :
    pf.request_path = p := by
  simp only [process_file] at h
  repeat' split at h
  all_goals first
    | (simp only [Except.ok.injEq, Prod.mk.injEq] at h
       obtain ⟨h1, -⟩ := h
       rw [← h1])
    | exact absurd h (by simp)

theorem relay_loop_nil {J : Type} {t : List Char}
    {load : List Char → Option J} {post : List Char → J → HttpResponse J} :
    relay_loop t load post [] = (Except.ok [], []) := rfl

theorem relay_loop_cons_err {J : Type} {t : List Char}
    {load : List Char → Option J} {post : List Char → J → HttpResponse J}
    {p : List Char} {rest : List (List Char)} {e : RelayError}
    (hc : process_file t load post p = Except.error e) :
    relay_loop t load post (p :: rest) = (Except.error e, []) := by
  simp only [relay_loop]
  rw [hc]

theorem relay_loop_cons_ok {J : Type} {t : List Char}
    {load : List Char → Option J} {post : List Char → J → HttpResponse J}
    {p : List Char} {rest : List (List Char)} {pf : ProcessedFile}
    {w : List Char × J}
    (hc : process_file t load post p = Except.ok (pf, w)) :
    relay_loop t load post (p :: rest) =
      ((relay_loop t load post rest).1.map (fun pfs => pf :: pfs),
        w :: (relay_loop t load post rest).2) := by
  simp only [relay_loop]
  rw [hc]

theorem relay_loop_ok {J : Type} {t : List Char}
    {load : List Char → Option J} {post : List Char → J → HttpResponse J} :
    ∀ {l : List (List Char)} {pfs : List ProcessedFile},
      (relay_loop t load post l).1 = Except.ok pfs →
      pfs.length = l.length ∧
        ∀ pf ∈ pfs, ∃ w,
          process_file t load post pf.request_path = Except.ok (pf, w) := by
  intro l
  induction l with
  | nil =>
    intro pfs h
    rw [relay_loop_nil] at h
    simp only [Except.ok.injEq] at h
    subst h
    exact ⟨rfl, fun pf hmem => absurd hmem (List.not_mem_nil pf)⟩
  | cons p rest ih =>
    intro pfs h
    cases hc : process_file t load post p with
    | error e => rw [relay_loop_cons_err hc] at h; exact absurd h (by simp)
    | ok pw =>
      obtain ⟨pf, w⟩ := pw
      rw [relay_loop_cons_ok hc] at h
      cases htail : (relay_loop t load post rest).1 with
      | error e => rw [htail] at h; exact absurd h (by simp [Except.map])
      | ok tailpfs =>
        rw [htail] at h
        simp only [Except.map, Except.ok.injEq] at h
        obtain ⟨hlen, htl⟩ := ih htail
        subst h
        refine ⟨by simp [hlen], ?_⟩
        intro pf' hmem
        rcases List.mem_cons.mp hmem with rfl | hmem'
        · exact ⟨w, by rw [process_file_ok_request_path hc]; exact hc⟩
        · exact htl pf' hmem'

theorem relay_loop_err {J : Type} {t : List Char}
    {load : List Char → Option J} {post : List Char → J → HttpResponse J}
    {p : List Char} {e : RelayError} :
    ∀ {l : List (List Char)}, p ∈ l →
      process_file t load post p = Except.error e →
      ∃ e', (relay_loop t load post l).1 = Except.error e' := by
  intro l
  induction l with
  | nil => intro hmem; exact absurd hmem (by simp)
  | cons q rest ih =>
    intro hmem hpe
    cases hc : process_file t load post q with
    | error e2 => exact ⟨e2, by rw [relay_loop_cons_err hc]⟩
    | ok pw =>
      rcases List.mem_cons.mp hmem with rfl | hmem2
      · rw [hc] at hpe; exact absurd hpe (by simp)
      · obtain ⟨e2, he2⟩ := ih hmem2 hpe
        obtain ⟨pf, w⟩ := pw
        refine ⟨e2, ?_⟩
        rw [relay_loop_cons_ok hc]
        simp [he2, Except.map]

/-! ### Lemmas about discovery and URL resolution -/

theorem path_parts_inj {a b : List Char} (h : path_parts a = path_parts b) :
    a = b := by
  have ha : ['/'].intercalate (a.splitOn '/') = a :=
    List.intercalate_splitOn a '/'
  have hb : ['/'].intercalate (b.splitOn '/') = b :=
    List.intercalate_splitOn b '/'
  have h' : a.splitOn '/' = b.splitOn '/' := h
  rw [← ha, ← hb, h']

instance isTotalPathPartsLe :
    IsTotal (List Char) (fun a b => path_parts a ≤ path_parts b) :=
  ⟨fun a b => le_total (path_parts a) (path_parts b)⟩

instance isTransPathPartsLe :
    IsTrans (List Char) (fun a b => path_parts a ≤ path_parts b) :=
  ⟨fun _ _ _ h1 h2 => le_trans h1 h2⟩

instance isAntisymmPathPartsLe :
    IsAntisymm (List Char) (fun a b => path_parts a ≤ path_parts b) :=
  ⟨fun _ _ h1 h2 => path_parts_inj (le_antisymm h1 h2)⟩

theorem iter_request_files_mem {fs : List (List Char)} {p : List Char} :
    p ∈ iter_request_files fs ↔
      p ∈ fs ∧ ("_req.json".data <:+ path_name p ∨
        "_req3.json".data <:+ path_name p) := by
  unfold iter_request_files
  rw [(List.perm_insertionSort _ _).mem_iff, List.mem_dedup, List.mem_append]
  simp only [List.mem_filter, matchesReqJson, matchesReq3Json,
    decide_eq_true_eq]
  tauto

theorem iter_request_files_sorted (fs : List (List Char)) :
    (iter_request_files fs).Sorted
      (fun a b => path_parts a ≤ path_parts b) :=
  List.sorted_insertionSort _ _

theorem iter_request_files_nodup (fs : List (List Char)) :
    (iter_request_files fs).Nodup :=
  (List.perm_insertionSort _ _).nodup_iff.mpr (List.nodup_dedup _)

theorem iter_request_files_det {fs fs' : List (List Char)}
    (h : ∀ p, p ∈ fs ↔ p ∈ fs') :
    iter_request_files fs = iter_request_files fs' := by
  refine List.eq_of_perm_of_sorted ?_
    (iter_request_files_sorted fs) (iter_request_files_sorted fs')
  refine (List.perm_ext_iff_of_nodup
    (iter_request_files_nodup fs) (iter_request_files_nodup fs')).mpr ?_
  intro a
  rw [iter_request_files_mem, iter_request_files_mem, h a]

theorem resolve_post_url_of_ok {base : List Char} {parts : SplitResult}
    (h : urlsplit base = Except.ok parts) (f : List Char) :
    resolve_post_url base f =
      if ¬ ("/idou/".data <:+: parts.path) then Except.ok base
      else
        match _IDOU_ROUTE_RULES.find?
            (fun rule => ruleMatch rule.1 (path_name f)) with
        | some rule =>
          Except.ok (urlunsplit parts.scheme parts.netloc
            (rstripSlash parts.path ++ '/' :: rule.2) parts.query parts.fragment)
        | none => Except.ok base := by
  unfold resolve_post_url
  rw [h]

theorem relay_requests_result_ok {J : Type} {target directory : List Char}
    {fs : List (List Char)} {load : List Char → Option J}
    {post : List Char → J → HttpResponse J} {cs : Bool} {s : ProcessSummary}
    (hs : (relay_requests target directory fs load post cs).result =
      Except.ok s) :
    ∃ pfs,
      (relay_loop target load post (iter_request_files fs)).1 =
          Except.ok pfs ∧
        s = ⟨target, directory, pfs⟩ := by
  simp only [relay_requests] at hs
  cases hrun : (relay_loop target load post (iter_request_files fs)).1 with
  | error e => rw [hrun] at hs; exact absurd hs (by simp [Except.map])
  | ok pfs =>
    rw [hrun] at hs
    simp only [Except.map, Except.ok.injEq] at hs
    exact ⟨pfs, rfl, hs.symm⟩

/-! ### Claim theorems -/

/-- C1: the claim states that `resolve_post_url` maps the base URL
`http://example.com/idou/service` with file name `05alpha_req.json` to
`http://example.com/idou/service/jissekicalc`, and generally that a rule
prefix followed directly by extra characters matches.  The code refutes
this: the pattern `^05(?:_.*)?_req\.json$` demands an underscore right
after the prefix, so `05alpha_req.json` matches no rule and the base URL
is returned unchanged, while `05_alpha_req.json` does map to
`jissekicalc`.  This theorem evaluates the code at the failing input. -/
theorem resolve_post_url_05alpha_unchanged :
    resolve_post_url "http://example.com/idou/service".data
        "05alpha_req.json".data =
      Except.ok "http://example.com/idou/service".data ∧
    resolve_post_url "http://example.com/idou/service".data
        "05_alpha_req.json".data =
      Except.ok "http://example.com/idou/service/jissekicalc".data := by
  constructor
  · decide
  · decide

/-- C2: the claim states that the `15_2` rule maps to the path suffix
`meisairep`.  The code refutes this: the `meisairep` entry is commented out
of `_IDOU_ROUTE_RULES` and the active `15_2` rule maps to `meisaiif`, so
`resolve_post_url` sends `15_2_req.json` (and `15_2_zeta_req.json`) to
`.../meisaiif`, not `.../meisairep`.  This theorem evaluates the code at
the failing inputs. -/
theorem resolve_post_url_15_2_meisaiif :
    resolve_post_url "http://example.com/idou/service".data
        "15_2_req.json".data =
      Except.ok "http://example.com/idou/service/meisaiif".data ∧
    resolve_post_url "http://example.com/idou/service".data
        "15_2_zeta_req.json".data =
      Except.ok "http://example.com/idou/service/meisaiif".data := by
  constructor
  · decide
  · decide

/-- C4: for every base URL whose parsed path contains `/idou/` and every
request file whose name ends in `_req3.json`, no route rule matches (every
pattern requires the `_req.json` ending) and `resolve_post_url` returns
the base URL unchanged. -/
theorem resolve_post_url_req3_unchanged :
    ∀ (base f : List Char) (parts : SplitResult),
      urlsplit base = Except.ok parts →
      ("/idou/".data <:+: parts.path) →
      ("_req3.json".data <:+ path_name f) →
      resolve_post_url base f = Except.ok base := by
  intro base f parts h hi hf
  rw [resolve_post_url_of_ok h, if_neg (not_not_intro hi)]
  have hnone : _IDOU_ROUTE_RULES.find?
      (fun rule => ruleMatch rule.1 (path_name f)) = none := by
    rw [List.find?_eq_none]
    intro rule hr
    simp [ruleMatch_eq_false_of_req3 hf rule.1]
  rw [hnone]

theorem resolve_post_url_req3_unchanged_witness :
    resolve_post_url "http://example.com/idou/service".data
        "/data/05_1_req3.json".data =
      Except.ok "http://example.com/idou/service".data :=
  resolve_post_url_req3_unchanged "http://example.com/idou/service".data
    "/data/05_1_req3.json".data
    ⟨"http".data, "example.com".data, "/idou/service".data, [], []⟩
    (by decide) (by decide) (by decide)

/-- C5: `build_response_path` maps a request path whose name is
`…_req.json` to the sibling path `…_res.json`, a name `…_req3.json` to the
sibling `…_res3.json`, and returns the unrecognized-suffix
`ProcessingError` exactly when the stem ends in neither `_req` nor
`_req3`. -/
theorem build_response_path_spec :
    ∀ path : List Char,
      (∀ p, path_name path = p ++ "_req.json".data →
        build_response_path path =
          Except.ok (path_with_name path (p ++ "_res.json".data))) ∧
      (∀ p, path_name path = p ++ "_req3.json".data →
        build_response_path path =
          Except.ok (path_with_name path (p ++ "_res3.json".data))) ∧
      (build_response_path path =
          Except.error (RelayError.unrecognizedSuffix path) ↔
        ¬ ("_req".data <:+ path_stem (path_name path)) ∧
          ¬ ("_req3".data <:+ path_stem (path_name path))) :=
  fun _ => ⟨fun _ h => build_response_path_req h,
    fun _ h => build_response_path_req3 h, build_response_path_error_iff⟩

theorem build_response_path_spec_witness :
    build_response_path "/tmp/依頼_req.json".data =
        Except.ok "/tmp/依頼_res.json".data ∧
      build_response_path "/tmp/依頼_req3.json".data =
        Except.ok "/tmp/依頼_res3.json".data ∧
      build_response_path "/tmp/依頼.json".data =
        Except.error (RelayError.unrecognizedSuffix "/tmp/依頼.json".data) := by
  refine ⟨?_, ?_, ?_⟩
  · rw [(build_response_path_spec "/tmp/依頼_req.json".data).1
      "依頼".data (by decide)]
    decide
  · rw [(build_response_path_spec "/tmp/依頼_req3.json".data).2.1
      "依頼".data (by decide)]
    decide
  · exact (build_response_path_spec "/tmp/依頼.json".data).2.2.mpr (by decide)

/-- C6: if any per-file step (load, route, POST status, response parse,
response-path derivation) fails for any discovered file, `relay_requests`
ends in an error and no `ProcessSummary` is produced; and whenever a
summary is returned, every entry of `processed_files` is a file whose full
exchange succeeded. -/
theorem relay_requests_all_or_nothing :
    ∀ (J : Type) (target directory : List Char) (fs : List (List Char))
      (load : List Char → Option J) (post : List Char → J → HttpResponse J)
      (clientSupplied : Bool),
      (∀ p, p ∈ iter_request_files fs →
        ∀ e, process_file target load post p = Except.error e →
          ∃ e', (relay_requests target directory fs load post
            clientSupplied).result = Except.error e') ∧
      (∀ s, (relay_requests target directory fs load post
            clientSupplied).result = Except.ok s →
        ∀ pf ∈ s.processed_files, ∃ w,
          process_file target load post pf.request_path =
            Except.ok (pf, w)) := by
  intro J target directory fs load post cs
  constructor
  · intro p hp e he
    obtain ⟨e', he'⟩ := relay_loop_err hp he
    exact ⟨e', by simp [relay_requests, he', Except.map]⟩
  · intro s hs pf hpf
    obtain ⟨pfs, hrun, hspf⟩ := relay_requests_result_ok hs
    refine (relay_loop_ok hrun).2 pf ?_
    rw [hspf] at hpf
    exact hpf

theorem relay_requests_all_or_nothing_witness :
    (∃ e', (relay_requests "http://x".data "/d".data ["/d/a_req.json".data]
        (fun _ => (none : Option Nat)) (fun _ _ => ⟨none, some 0⟩)
        true).result = Except.error e') ∧
    (∃ w, process_file "http://x".data
        (fun _ => (some 1 : Option Nat)) (fun _ _ => ⟨none, some 2⟩)
        "/d/a_req.json".data =
      Except.ok (⟨"/d/a_req.json".data, "/d/a_res.json".data⟩, w)) :=
  ⟨(relay_requests_all_or_nothing Nat "http://x".data "/d".data
      ["/d/a_req.json".data] (fun _ => none) (fun _ _ => ⟨none, some 0⟩)
      true).1 "/d/a_req.json".data (by decide)
    (RelayError.invalidRequestJSON "/d/a_req.json".data) (by decide),
   (relay_requests_all_or_nothing Nat "http://x".data "/d".data
      ["/d/a_req.json".data] (fun _ => some 1) (fun _ _ => ⟨none, some 2⟩)
      true).2
    ⟨"http://x".data, "/d".data,
      [⟨"/d/a_req.json".data, "/d/a_res.json".data⟩]⟩ (by decide)
    ⟨"/d/a_req.json".data, "/d/a_res.json".data⟩ (by decide)⟩

/-- C7 (counterexample): the claim says the discovered files come sorted
in lexicographic full-path order.  They do not: `sorted` compares
`pathlib` paths by their component tuples, so on a tree holding
`/d/a.b/x_req.json` and `/d/a/y_req.json` the code yields
`/d/a/y_req.json` first (component `a` precedes `a.b`), although in
full-path string order `/d/a.b/x_req.json` comes first (`.` precedes
`/`), so the output is not `≤`-sorted as path strings. -/
theorem iter_request_files_not_string_sorted :
    iter_request_files ["/d/a.b/x_req.json".data, "/d/a/y_req.json".data] =
      ["/d/a/y_req.json".data, "/d/a.b/x_req.json".data] ∧
    ¬ ("/d/a/y_req.json".data ≤ "/d/a.b/x_req.json".data) := by
  constructor
  · decide
  · decide

/-- C7 (amended): `iter_request_files` yields exactly the deduplicated
union of the entries whose name ends in `_req.json` or `_req3.json`,
sorted in `pathlib`'s path order — lexicographic on the tuples of path
components rather than on the full path strings — and the result is
determined by the set of entries of the tree alone (in particular it is
identical across repeated runs on an unchanged tree, whatever order the
walk reports entries in). -/
theorem iter_request_files_spec :
    ∀ fs : List (List Char),
      (iter_request_files fs).Sorted
        (fun a b => path_parts a ≤ path_parts b) ∧
      (iter_request_files fs).Nodup ∧
      (∀ p, p ∈ iter_request_files fs ↔
        p ∈ fs ∧ ("_req.json".data <:+ path_name p ∨
          "_req3.json".data <:+ path_name p)) ∧
      (∀ fs', (∀ p, p ∈ fs ↔ p ∈ fs') →
        iter_request_files fs = iter_request_files fs') :=
  fun fs => ⟨iter_request_files_sorted fs, iter_request_files_nodup fs,
    fun _ => iter_request_files_mem, fun _ h => iter_request_files_det h⟩

theorem iter_request_files_spec_witness :
    iter_request_files
        ["/d/b_req.json".data, "/d/a_req3.json".data, "/d/c.txt".data] =
      iter_request_files
        ["/d/a_req3.json".data, "/d/c.txt".data, "/d/b_req.json".data,
          "/d/b_req.json".data] :=
  (iter_request_files_spec
      ["/d/b_req.json".data, "/d/a_req3.json".data, "/d/c.txt".data]).2.2.2
    ["/d/a_req3.json".data, "/d/c.txt".data, "/d/b_req.json".data,
      "/d/b_req.json".data]
    (by
      intro p
      simp only [List.mem_cons, List.not_mem_nil, or_false]
      tauto)

/-- C8: `relay_requests` closes the HTTP client (on every exit path, since
the close flag of the outcome is set by the `finally` block whatever the
result is) if and only if no client was supplied and the engine created
its own; a caller-supplied client is never closed. -/
theorem relay_requests_client_closed_iff :
    ∀ (J : Type) (target directory : List Char) (fs : List (List Char))
      (load : List Char → Option J) (post : List Char → J → HttpResponse J)
      (clientSupplied : Bool),
      ((relay_requests target directory fs load post
          clientSupplied).client_closed = true ↔
        clientSupplied = false) := by
  intro J target directory fs load post cs
  cases cs <;> simp [relay_requests]

/-- C9: with zero discovered request files `relay_requests` returns an
empty summary rather than an error; `processed_count` is the length of
`processed_files`; and on success that length equals the number of
discovered files. -/
theorem relay_requests_empty_and_count :
    ∀ (J : Type) (target directory : List Char) (fs : List (List Char))
      (load : List Char → Option J) (post : List Char → J → HttpResponse J)
      (clientSupplied : Bool),
      (iter_request_files fs = [] →
        (relay_requests target directory fs load post
            clientSupplied).result =
          Except.ok ⟨target, directory, []⟩) ∧
      (∀ s, (relay_requests target directory fs load post
            clientSupplied).result = Except.ok s →
        s.processed_count = s.processed_files.length ∧
          s.processed_files.length = (iter_request_files fs).length) := by
  intro J target directory fs load post cs
  constructor
  · intro h0
    simp [relay_requests, h0, relay_loop_nil, Except.map]
  · intro s hs
    refine ⟨rfl, ?_⟩
    obtain ⟨pfs, hrun, hspf⟩ := relay_requests_result_ok hs
    rw [hspf]
    exact (relay_loop_ok hrun).1

theorem relay_requests_empty_and_count_witness :
    ((relay_requests "http://x".data "/d".data ([] : List (List Char))
        (fun _ => (none : Option Nat)) (fun _ _ => ⟨none, none⟩)
        true).result = Except.ok ⟨"http://x".data, "/d".data, []⟩) ∧
    ((⟨"http://x".data, "/d".data,
        [⟨"/d/a_req.json".data, "/d/a_res.json".data⟩]⟩ :
          ProcessSummary).processed_count =
        [(⟨"/d/a_req.json".data, "/d/a_res.json".data⟩ :
          ProcessedFile)].length ∧
      [(⟨"/d/a_req.json".data, "/d/a_res.json".data⟩ :
          ProcessedFile)].length =
        (iter_request_files ["/d/a_req.json".data]).length) :=
  ⟨(relay_requests_empty_and_count Nat "http://x".data "/d".data []
      (fun _ => none) (fun _ _ => ⟨none, none⟩) true).1 (by decide),
   (relay_requests_empty_and_count Nat "http://x".data "/d".data
      ["/d/a_req.json".data] (fun _ => some 1) (fun _ _ => ⟨none, some 2⟩)
      true).2
    ⟨"http://x".data, "/d".data,
      [⟨"/d/a_req.json".data, "/d/a_res.json".data⟩]⟩ (by decide)⟩

/-- C10: `resolve_post_url` tests for `/idou/` only in the parsed path
component: a base URL whose query contains `/idou/`, one whose fragment
contains `/idou/`, and one whose path ends in `/idou` without a trailing
slash are all returned unchanged for every file name. -/
theorem resolve_post_url_ignores_query_fragment :
    (urlsplit "http://example.com/svc?x=/idou/y#frag".data =
      Except.ok ⟨"http".data, "example.com".data, "/svc".data,
        "x=/idou/y".data, "frag".data⟩) ∧
    ("/idou/".data <:+: "x=/idou/y".data) ∧
    ¬ ("/idou/".data <:+: "/svc".data) ∧
    (∀ f, resolve_post_url "http://example.com/svc?x=/idou/y#frag".data f =
      Except.ok "http://example.com/svc?x=/idou/y#frag".data) ∧
    (urlsplit "http://example.com/svc#/idou/".data =
      Except.ok ⟨"http".data, "example.com".data, "/svc".data, [],
        "/idou/".data⟩) ∧
    (∀ f, resolve_post_url "http://example.com/svc#/idou/".data f =
      Except.ok "http://example.com/svc#/idou/".data) ∧
    (urlsplit "http://example.com/idou".data =
      Except.ok ⟨"http".data, "example.com".data, "/idou".data, [], []⟩) ∧
    ¬ ("/idou/".data <:+: "/idou".data) ∧
    (∀ f, resolve_post_url "http://example.com/idou".data f =
      Except.ok "http://example.com/idou".data) := by
  refine ⟨by decide, by decide, by decide, ?_, by decide, ?_, by decide,
    by decide, ?_⟩
  · intro f
    rw [resolve_post_url_of_ok
      (show urlsplit "http://example.com/svc?x=/idou/y#frag".data =
        Except.ok ⟨"http".data, "example.com".data, "/svc".data,
          "x=/idou/y".data, "frag".data⟩ by decide)]
    rw [if_pos (by decide)]
  · intro f
    rw [resolve_post_url_of_ok
      (show urlsplit "http://example.com/svc#/idou/".data =
        Except.ok ⟨"http".data, "example.com".data, "/svc".data, [],
          "/idou/".data⟩ by decide)]
    rw [if_pos (by decide)]
  · intro f
    rw [resolve_post_url_of_ok
      (show urlsplit "http://example.com/idou".data =
        Except.ok ⟨"http".data, "example.com".data, "/idou".data, [],
          []⟩ by decide)]
    rw [if_pos (by decide)]

end EngineTester
